import Mathlib

/-!
Verification development for `mesheryctl/internal/cli/root/model/import.go`
(the `mesheryctl model import` command): the payload-preparation step of the
command's run function and the response report engine
(`displayEntities` and its helpers).

Modelling conventions:
* Go `interface{}` values decoded from JSON are modelled by `JValue`
  (strings, arrays, objects and `nil`; the claims exercise no numeric or
  boolean leaves).
* A Go `map[string]interface{}` is modelled as an association list
  (`GoMap`); lookup of an absent key yields `JValue.vNull`, matching a Go
  map read of a missing key producing a nil interface value.
* A Go single-value type assertion `x.(T)` panics when it fails; such a
  panic aborts report generation, modelled by `Option` with `none` for
  "panicked".  The comma-ok form `v, _ := x.(T)` yields the zero value on
  failure and is modelled by total functions returning `""` / `[]`.
  `meshkitutils.Cast[T]` succeeds exactly when the assertion would, but
  returns an error the caller handles instead of panicking; it is modelled
  by the same `Option`-valued extractors, with the caller consuming the
  `none`.
* Output is modelled as a list of `OutEvent`s: one event per emitted log
  line / blank line / table, carrying the data the line is built from
  (terminal styling such as `utils.BoldString` and the exact `Infof`
  format strings are presentation-sink concerns).  A `.diagnostic` event
  stands for one logged diagnostic (`utils.Log.Error` / the `Infof`
  diagnostics of `buildLongDescription`).
* Go map iteration order (the `relationshipMap` render loop) is
  unspecified; the model uses insertion order.
-/

/-- JSON-like dynamic value, the model of a Go `interface{}` decoded from the
response body.  `vNull` stands for a nil interface value (missing key or JSON
null). -/
inductive JValue where
  | vStr (s : String)
  | vArr (items : List JValue)
  | vObj (fields : List (String × JValue))
  | vNull

/-- Model of a Go `map[string]interface{}`: an association list. -/
abbrev GoMap := List (String × JValue)

/-- Go map read `m[key]`: first binding wins; a missing key yields the nil
interface value (`vNull`). -/
def mapLookup : GoMap → String → JValue
  | [], _ => JValue.vNull
  | (k, v) :: rest, key => if k = key then v else mapLookup rest key

/-- Single-value type assertion `x.(string)`: `none` models the Go panic on a
non-string value.  `meshkitutils.Cast[string]` has the same success
condition. -/
def jAssertString : JValue → Option String
  | JValue.vStr s => some s
  | _ => none

/-- Single-value type assertion `x.(map[string]interface{})`; `none` models
the panic (or, for `meshkitutils.Cast`, the returned error). -/
def jAssertMap : JValue → Option GoMap
  | JValue.vObj fields => some fields
  | _ => none

/-- Single-value type assertion `x.([]interface{})`; `none` models the panic
(or, for `meshkitutils.Cast`, the returned error). -/
def jAssertArr : JValue → Option (List JValue)
  | JValue.vArr items => some items
  | _ => none

/-- Comma-ok assertion `s, _ := x.(string)`: the zero value `""` on failure. -/
def jOkString : JValue → String
  | JValue.vStr s => s
  | _ => ""

/-- Comma-ok assertion `m, _ := x.(map[string]interface{})`: a nil map on
failure, which reads as empty. -/
def jOkMap : JValue → GoMap
  | JValue.vObj fields => fields
  | _ => []

mutual

/-- Rendering of a value by `fmt.Sprintf` with the `%s` verb.  Only the
string case is reached by the report code on well-formed data (the `kind`
fields of selector endpoints); the remaining cases approximate Go's `fmt`
output for the other shapes. -/
def goFormatS : JValue → String
  | JValue.vStr s => s
  | JValue.vNull => "%!s(<nil>)"
  | JValue.vArr items => "[" ++ goFormatSItems items ++ "]"
  | JValue.vObj fields => "map[" ++ goFormatSFields fields ++ "]"

/-- Space-separated rendering of array items for `goFormatS`. -/
def goFormatSItems : List JValue → String
  | [] => ""
  | [x] => goFormatS x
  | x :: rest => goFormatS x ++ " " ++ goFormatSItems rest

/-- Space-separated `key:value` rendering of object fields for `goFormatS`. -/
def goFormatSFields : List (String × JValue) → String
  | [] => ""
  | [(k, v)] => k ++ ":" ++ goFormatS v
  | (k, v) :: rest => k ++ ":" ++ goFormatS v ++ " " ++ goFormatSFields rest

end

/-- One emitted unit of report output. -/
inductive OutEvent where
  /-- `SUMMARY: <msg>` line of `displaySummary`. -/
  | summary (msg : String)
  /-- `MODEL: <name>` header line of `displayModelInfo`. -/
  | modelHeader (name : String)
  /-- `fmt.Println("")`. -/
  | blank
  /-- `utils.PrintToTable(header, rows)`. -/
  | table (header : List String) (rows : List (List String))
  /-- `RELATIONSHIP(S): Kind of <p0> and sub type <p1>` header line. -/
  | relHeader (plural : Bool) (kindPart subtypePart : String)
  /-- `ERROR: Import process for file <name> encountered error: <desc>`,
  the immediate line for an `Unknown` entity type. -/
  | unknownError (name desc : String)
  /-- `ERROR: Import did not occur for<line> error: <desc>`, the combined
  line of `displayUnsuccessfulEntities`. -/
  | combinedError (line desc : String)
  /-- One logged diagnostic for a skipped malformed record. -/
  | diagnostic
deriving DecidableEq, Repr

/-- `EntityCount` sub-object of the registry response (fields used by the
report: `CompCount`, `RelCount`, `TotalErrCount`). -/
structure EntityCount where
  compCount : Int
  relCount : Int
  totalErrCount : Int
deriving DecidableEq, Repr

/-- `EntityTypeSummary` sub-object of the registry response: the three
loosely-typed record lists consumed by the report engine. -/
structure EntityTypeSummary where
  successfulComponents : List GoMap
  successfulRelationships : List GoMap
  unsuccessfulEntityNameWithError : List JValue

/-- `models.RegistryAPIResponse`, restricted to the fields the report engine
reads: `ErrMsg`, `ModelName`, `EntityCount`, `EntityTypeSummary`. -/
structure RegistryAPIResponse where
  errMsg : String
  modelName : List String
  entityCount : EntityCount
  entityTypeSummary : EntityTypeSummary

/-- `displayEmtpyModel` (source spelling kept): `false` exactly when the
model-name list is non-empty, both success counts are zero and the total
error count is zero. -/
def displayEmtpyModel (response : RegistryAPIResponse) : Bool :=
  if response.modelName.length ≠ 0 ∧ response.entityCount.compCount = 0 ∧
      response.entityCount.relCount = 0 then
    if response.entityCount.totalErrCount = 0 then false else true
  else true

/-- `filepath.Ext` helper: scan the reversed character list for the last dot
of the final path element; the result is the extension's characters in
order, `none` when a separator or the start is reached first. -/
def extFromRev : List Char → Option (List Char)
  | [] => none
  | c :: rest =>
      if c = '/' then none
      else if c = '.' then some ['.']
      else (extFromRev rest).map (fun e => e ++ [c])

/-- Go `filepath.Ext` (Unix separators): the suffix beginning at the final
dot in the final element of the path, empty if there is no dot. -/
def goExt (path : String) : String :=
  match extFromRev path.data.reverse with
  | none => ""
  | some e => String.mk e

/-- `hasExtension` from the source: compares `filepath.Ext(name)` against the
seven literal alternatives (including the unreachable `".tar.gz"`). -/
def hasExtension (name : String) : Bool :=
  let extension := goExt name
  extension = ".json" || extension = ".yaml" || extension = ".yml" ||
    extension = ".tar.gz" || extension = ".tar" || extension = ".zip" || extension = ".tgz"

/-- Classification loop of `displayEntitisIfModel`: split the model-name list
into (modelsWithoutExtension, modelsWithExtension), dropping empty names and
preserving order and duplicates.  The Go loop appends forward to two slices;
this recursion builds the same two lists. -/
def partitionModels : List String → List String × List String
  | [] => ([], [])
  | model :: rest =>
      let acc := partitionModels rest
      if model ≠ "" then
        if hasExtension model then (acc.1, model :: acc.2)
        else (model :: acc.1, acc.2)
      else acc

/-- Row-building loop of `displaySuccessfulComponents`.  The comma-ok
assertions yield zero values; the chained single-value assertions on
`modelData["category"]` and `modelData["model"]` can panic (`none`). -/
def componentRows (modelName : String) : List GoMap → Option (List (List String))
  | [] => some []
  | comp :: rest => do
      let displayName := jOkString (mapLookup comp "DisplayName")
      let modelData := jOkMap (mapLookup comp "Model")
      let modelDisplayName := jOkString (mapLookup modelData "name")
      let catMap ← jAssertMap (mapLookup modelData "category")
      let category := jOkString (mapLookup catMap "name")
      let verMap ← jAssertMap (mapLookup modelData "model")
      let modelVersion := jOkString (mapLookup verMap "version")
      let restRows ← componentRows modelName rest
      pure ((if modelDisplayName = modelName then [[displayName, category, modelVersion]] else []) ++ restRows)

/-- `displaySuccessfulComponents`: build the filtered rows; when at least one
row survives, emit a blank line and the component table. -/
def displaySuccessfulComponents (response : RegistryAPIResponse) (modelName : String) :
    Option (List OutEvent) :=
  if response.entityTypeSummary.successfulComponents.length > 0 then do
    let rows ← componentRows modelName response.entityTypeSummary.successfulComponents
    if rows.length > 0 then
      pure [OutEvent.blank, OutEvent.table ["Component", "Category", "Version"] rows]
    else
      pure []
  else some []

/-- Ordered model of the Go `relationshipMap`: group key to accumulated
rows. -/
abbrev RelMap := List (String × List (List String))

/-- `relationshipMap[key] = append(relationshipMap[key], row)`, with
insertion order made explicit. -/
def mapInsertAppend (m : RelMap) (key : String) (row : List String) : RelMap :=
  if (m.find? (fun kv => kv.1 = key)).isSome then
    m.map (fun kv => if kv.1 = key then (kv.1, kv.2 ++ [row]) else kv)
  else m ++ [(key, [row])]

/-- Inner selector loop of `displaySuccessfulRelationships`: every extraction
is a single-value assertion (panic on mismatch, `from[0]`/`to[0]` panic on an
empty list); a `(key, from, to)` combination already in `seen` is skipped,
otherwise it is recorded and its row appended to the group. -/
def processSelectors (kind subtype : String) (st : List String × RelMap) :
    List JValue → Option (List String × RelMap)
  | [] => some st
  | selector :: rest => do
      let selectorMap ← jAssertMap selector
      let allow ← jAssertMap (mapLookup selectorMap "allow")
      let fromList ← jAssertArr (mapLookup allow "from")
      let toList ← jAssertArr (mapLookup allow "to")
      let fromHead ← fromList.head?
      let fromMap ← jAssertMap fromHead
      let toHead ← toList.head?
      let toMap ← jAssertMap toHead
      let fromComponent := goFormatS (mapLookup fromMap "kind")
      let toComponent := goFormatS (mapLookup toMap "kind")
      let key := kind ++ "-" ++ subtype
      let st' :=
        if key ++ fromComponent ++ toComponent ∈ st.1 then st
        else (st.1 ++ [key ++ fromComponent ++ toComponent],
              mapInsertAppend st.2 key [fromComponent, toComponent])
      processSelectors kind subtype st' rest

/-- Outer record loop of `displaySuccessfulRelationships`: `Kind`, `Subtype`
and the model name are asserted before the model filter, the selectors only
after it. -/
def processRelationships (model : String) (st : List String × RelMap) :
    List GoMap → Option (List String × RelMap)
  | [] => some st
  | rel :: rest => do
      let kind ← jAssertString (mapLookup rel "Kind")
      let subtype ← jAssertString (mapLookup rel "Subtype")
      let modelObj ← jAssertMap (mapLookup rel "Model")
      let modelName ← jAssertString (mapLookup modelObj "name")
      if modelName ≠ model then
        processRelationships model st rest
      else do
        let selectors ← jAssertArr (mapLookup rel "Selectors")
        let st' ← processSelectors kind subtype st selectors
        processRelationships model st' rest

/-- Go `strings.Split(key, "-")` on the character list. -/
def goSplitDash : List Char → List (List Char)
  | [] => [[]]
  | c :: rest =>
      match goSplitDash rest with
      | [] => [[]]
      | g :: gs => if c = '-' then [] :: g :: gs else (c :: g) :: gs

/-- Render one `relationshipMap` group: blank line, a header naming
`parts[0]` and `parts[1]` of the dash-split key (plural label when the group
has more than one row), then the From/To table.  Accessing a missing
`parts[1]` would panic in Go (unreachable: every key contains a dash). -/
def renderRelGroup (key : String) (rows : List (List String)) : Option (List OutEvent) :=
  if rows.length > 0 then do
    let parts := (goSplitDash key.data).map (fun cs => String.mk cs)
    let p0 ← parts.get? 0
    let p1 ← parts.get? 1
    some [OutEvent.blank, OutEvent.relHeader (decide (rows.length > 1)) p0 p1,
      OutEvent.table ["From", "To"] rows]
  else some []

/-- Render loop over `relationshipMap` (Go map order is unspecified;
insertion order here). -/
def renderRelationshipMap : RelMap → Option (List OutEvent)
  | [] => some []
  | (key, rows) :: rest => do
      let evs ← renderRelGroup key rows
      let restEvs ← renderRelationshipMap rest
      pure (evs ++ restEvs)

/-- `displaySuccessfulRelationships`: build the deduplicated grouped rows for
the given model, then render each group. -/
def displaySuccessfulRelationships (response : RegistryAPIResponse) (model : String) :
    Option (List OutEvent) :=
  if response.entityTypeSummary.successfulRelationships.length > 0 then do
    let st ← processRelationships model ([], [])
      response.entityTypeSummary.successfulRelationships
    renderRelationshipMap st.2
  else some []

/-- Go `strings.TrimSpace` restricted to ASCII whitespace (the descriptions
the report joins are plain text; Unicode space classes are not exercised). -/
def goTrimSpace (s : String) : String :=
  let sp := fun c => c = ' ' || c = '\t' || c = '\n' || c = '\r'
  String.mk (((s.data.dropWhile sp).reverse.dropWhile sp).reverse)

/-- Item loop of `buildLongDescription`: non-string items log a diagnostic
and are skipped, string items are appended followed by a space. -/
def buildLongDescriptionItems : List JValue → List OutEvent × String
  | [] => ([], "")
  | item :: rest =>
      let acc := buildLongDescriptionItems rest
      match item with
      | JValue.vStr s => (acc.1, s ++ " " ++ acc.2)
      | _ => (OutEvent.diagnostic :: acc.1, acc.2)

/-- `buildLongDescription`: a failed comma-ok assertion to a slice logs one
diagnostic and yields `""`; otherwise join the string items with trailing
spaces and trim.  The Go loop appends diagnostics and text forward; this
recursion produces the same diagnostic sequence and the same string. -/
def buildLongDescription : JValue → List OutEvent × String
  | JValue.vArr items =>
      let acc := buildLongDescriptionItems items
      (acc.1, goTrimSpace acc.2)
  | _ => ([OutEvent.diagnostic], "")

/-- Tail of one iteration of the `buildEntityTypeLine` walk, after the
model/Unknown filter admitted the index: an `Unknown` entity type logs the
immediate error line (asserting the name to string inside the log call, a
panic point); `component` and `relationship` bump their counters; anything
else is a no-op. -/
def entityTypeTail (longDescription : String) (name : JValue) (entityType : String)
    (st : List OutEvent × Nat × Nat) : Option (List OutEvent × Nat × Nat) :=
  if entityType = "Unknown" then do
    let nameStr ← jAssertString name
    some (st.1 ++ [OutEvent.unknownError nameStr longDescription], st.2.1, st.2.2)
  else if entityType = "component" then some (st.1, st.2.1 + 1, st.2.2)
  else if entityType = "relationship" then some (st.1, st.2.1, st.2.2 + 1)
  else some st

/-- Indexed walk of `buildEntityTypeLine` over the `name` array: the entity
type is the asserted string of `entityTypes[i]` when `i` is in range and
`""` otherwise; a non-empty model name admits only matching names (asserting
the name to string, a panic point), an empty model name admits only
`Unknown` entries. -/
def buildEntityTypeWalk (modelName longDescription : String) (entityTypes : List JValue)
    (i : Nat) (st : List OutEvent × Nat × Nat) :
    List JValue → Option (List OutEvent × Nat × Nat)
  | [] => some st
  | name :: rest => do
      let entityType ← match entityTypes.get? i with
        | some v => jAssertString v
        | none => some ""
      if modelName ≠ "" then do
        let nameStr ← jAssertString name
        if modelName ≠ nameStr then
          buildEntityTypeWalk modelName longDescription entityTypes (i + 1) st rest
        else do
          let st' ← entityTypeTail longDescription name entityType st
          buildEntityTypeWalk modelName longDescription entityTypes (i + 1) st' rest
      else
        if entityType ≠ "Unknown" then
          buildEntityTypeWalk modelName longDescription entityTypes (i + 1) st rest
        else do
          let st' ← entityTypeTail longDescription name entityType st
          buildEntityTypeWalk modelName longDescription entityTypes (i + 1) st' rest

/-- Line composition at the end of `buildEntityTypeLine`: the component
phrase when the component count is positive, `" and"` when both counts are
positive, the relationship phrase when the relationship count is positive;
singular `entity` for a count of one, `entities` for more. -/
def renderEntityTypeLine (compCount relCount : Nat) : String :=
  let line0 := ""
  let line1 :=
    if compCount > 0 then
      " " ++ toString compCount ++ " " ++ (if compCount > 1 then "entities" else "entity") ++
        " of type component"
    else line0
  let line2 := if compCount > 0 && relCount > 0 then line1 ++ " and" else line1
  if relCount > 0 then
    line2 ++ " " ++ toString relCount ++ " " ++ (if relCount > 1 then "entities" else "entity") ++
      " of type relationship"
  else line2

/-- `buildEntityTypeLine`: walk the parallel arrays emitting immediate
`Unknown` error lines and counting component/relationship entries, then
compose the summary phrase; `none` models a panic of one of the walk's type
assertions. -/
def buildEntityTypeLine (names entityTypes : List JValue) (longDescription modelName : String) :
    Option (List OutEvent × String) := do
  let st ← buildEntityTypeWalk modelName longDescription entityTypes 0 ([], 0, 0) names
  pure (st.1, renderEntityTypeLine st.2.1 st.2.2)

/-- Record handler of `displayUnsuccessfulEntities`: each failed
`meshkitutils.Cast` extraction logs one diagnostic and skips the record;
with the record extracted, build the joined description and the entity-type
line, and when the line is non-empty emit a blank line and the combined
error line. -/
def processUnsuccessfulRecord (modelName : String) (entity : JValue) : Option (List OutEvent) :=
  match jAssertMap entity with
  | none => some [OutEvent.diagnostic]
  | some entityMap =>
    match jAssertArr (mapLookup entityMap "name") with
    | none => some [OutEvent.diagnostic]
    | some names =>
      match jAssertArr (mapLookup entityMap "entityType") with
      | none => some [OutEvent.diagnostic]
      | some entityTypes =>
        match jAssertMap (mapLookup entityMap "error") with
        | none => some [OutEvent.diagnostic]
        | some errorDetails =>
          let desc := buildLongDescription (mapLookup errorDetails "LongDescription")
          match buildEntityTypeLine names entityTypes desc.2 modelName with
          | none => none
          | some (lineEvents, entityTypeLine) =>
            if entityTypeLine ≠ "" then
              some (desc.1 ++ lineEvents ++ [OutEvent.blank, OutEvent.combinedError entityTypeLine desc.2])
            else
              some (desc.1 ++ lineEvents)

/-- Record loop of `displayUnsuccessfulEntities`, concatenating each
record's output. -/
def processUnsuccessfulList (modelName : String) : List JValue → Option (List OutEvent)
  | [] => some []
  | entity :: rest => do
      let evs ← processUnsuccessfulRecord modelName entity
      let restEvs ← processUnsuccessfulList modelName rest
      pure (evs ++ restEvs)

/-- `displayUnsuccessfulEntities`. -/
def displayUnsuccessfulEntities (response : RegistryAPIResponse) (modelName : String) :
    Option (List OutEvent) :=
  if response.entityTypeSummary.unsuccessfulEntityNameWithError.length > 0 then
    processUnsuccessfulList modelName response.entityTypeSummary.unsuccessfulEntityNameWithError
  else some []

/-- `displayModelInfo` closure of `displayEntitisIfModel`: the `MODEL`
header only for names classified as extension-less, then the three detail
sections. -/
def displayModelInfo (response : RegistryAPIResponse) (model : String) (hasExt : Bool) :
    Option (List OutEvent) := do
  let comps ← displaySuccessfulComponents response model
  let rels ← displaySuccessfulRelationships response model
  let unsucc ← displayUnsuccessfulEntities response model
  pure ((if hasExt then [] else [OutEvent.modelHeader model]) ++ comps ++ rels ++ unsucc)

/-- One of the two render loops of `displayEntitisIfModel`, over one
classification group. -/
def displayModelBlocks (response : RegistryAPIResponse) (hasExt : Bool) :
    List String → Option (List OutEvent)
  | [] => some []
  | model :: rest => do
      let evs ← displayModelInfo response model hasExt
      let restEvs ← displayModelBlocks response hasExt rest
      pure (evs ++ restEvs)

/-- `displayEntitisIfModel` (source spelling kept): classify the model
names, render all extension-less names first, then all names with a
recognized extension. -/
def displayEntitisIfModel (response : RegistryAPIResponse) : Option (List OutEvent) := do
  let groups := partitionModels response.modelName
  let a ← displayModelBlocks response false groups.1
  let b ← displayModelBlocks response true groups.2
  pure (a ++ b)

/-- `displaySummary`: the `SUMMARY` line carrying the response message. -/
def displaySummary (response : RegistryAPIResponse) : List OutEvent :=
  [OutEvent.summary response.errMsg]

/-- `displayEntities`: return immediately when `displayEmtpyModel` reports
the degenerate response, otherwise the summary line followed by the
per-model breakdown. -/
def displayEntities (response : RegistryAPIResponse) : Option (List OutEvent) :=
  if displayEmtpyModel response then do
    let detail ← displayEntitisIfModel response
    pure (displaySummary response ++ detail)
  else some []

/-- Go `filepath.Base` for Unix separators: strip trailing slashes, take the
part after the last remaining slash; `"."` for the empty path, `"/"` when
nothing remains. -/
def filepathBase (path : String) : String :=
  if path = "" then "."
  else
    let r := path.data.reverse.dropWhile (fun c => c = '/')
    let b := r.takeWhile (fun c => c ≠ '/')
    if b = [] then "/" else String.mk b.reverse

/-- Result of `os.Stat` on the input path, restricted to what the run
function reads (`IsDir`). -/
inductive FSNode where
  | file
  | dir
deriving DecidableEq, Repr

/-- Payload-preparation step of the import command's run function: stat the
path; for a directory, compress it and name the upload `<base>.tar.gz`; for
a file, read its bytes unchanged and name the upload after the file.  The
filesystem and the directory compressor are the external collaborators
`os.Stat` / `os.ReadFile` / `compressDirectory` (the latter built on the
meshkit tar writer, outside this file's scope). -/
def importModelRun (stat : String → Option FSNode) (readFile : String → Option (List Nat))
    (compressDirectory : String → Except String (List Nat)) (path : String) :
    Except String (List Nat × String) :=
  match stat path with
  | none => Except.error "could not access the specified path"
  | some FSNode.dir =>
      match compressDirectory path with
      | Except.error e => Except.error e
      | Except.ok tarData => Except.ok (tarData, filepathBase path ++ ".tar.gz")
  | some FSNode.file =>
      match readFile path with
      | none => Except.error "could not read the specified file"
      | some fileData => Except.ok (fileData, filepathBase path)

/-- Relationship record shaped as the report engine expects, with one
selector whose allow-block lists a single from-kind and a single to-kind;
`extra` stands for whatever other fields the record carries. -/
def mkRelRecord (kind subtype modelName fromKind toKind : String) (extra : GoMap) : GoMap :=
  [("Kind", JValue.vStr kind), ("Subtype", JValue.vStr subtype),
   ("Model", JValue.vObj [("name", JValue.vStr modelName)]),
   ("Selectors", JValue.vArr [JValue.vObj [("allow", JValue.vObj
     [("from", JValue.vArr [JValue.vObj [("kind", JValue.vStr fromKind)]]),
      ("to", JValue.vArr [JValue.vObj [("kind", JValue.vStr toKind)]])])]])] ++ extra

/-- Degenerate response: one model name, zero component count, zero
relationship count, zero total errors. -/
def c1Response : RegistryAPIResponse :=
  { errMsg := "msg", modelName := ["model1"],
    entityCount := { compCount := 0, relCount := 0, totalErrCount := 0 },
    entityTypeSummary :=
      { successfulComponents := [], successfulRelationships := [],
        unsuccessfulEntityNameWithError := [] } }

/-- Response whose only successful-relationship record has no `Kind` field,
and whose only successful-component record has no `Model` field. -/
def c3Response : RegistryAPIResponse :=
  { errMsg := "msg", modelName := ["m"],
    entityCount := { compCount := 1, relCount := 1, totalErrCount := 0 },
    entityTypeSummary :=
      { successfulComponents := [[("DisplayName", JValue.vStr "comp1")]],
        successfulRelationships := [[("Model", JValue.vObj [("name", JValue.vStr "m")])]],
        unsuccessfulEntityNameWithError := [] } }

/-- Response holding two relationship records for `model1` that agree on
kind, subtype, first from-kind and first to-kind but differ in another
field. -/
def c4Response : RegistryAPIResponse :=
  { errMsg := "msg", modelName := ["model1"],
    entityCount := { compCount := 0, relCount := 2, totalErrCount := 0 },
    entityTypeSummary :=
      { successfulComponents := [],
        successfulRelationships :=
          [mkRelRecord "kind1" "sub1" "model1" "from1" "to1" [("extra", JValue.vStr "x")],
           mkRelRecord "kind1" "sub1" "model1" "from1" "to1" []],
        unsuccessfulEntityNameWithError := [] } }

/-- Phrase fragment `<n> entity|entities of type <t>` with its leading
space, as composed by `buildEntityTypeLine`. -/
def entityCountPhrase (n : Nat) (t : String) : String :=
  " " ++ toString n ++ " " ++ (if n > 1 then "entities" else "entity") ++ " of type " ++ t

/-- Unsuccessful-entity record with no `error` field. -/
def badEntityRecord : JValue :=
  JValue.vObj [("name", JValue.vArr [JValue.vStr "m1"]),
    ("entityType", JValue.vArr [JValue.vStr "component"])]

/-- Well-formed unsuccessful-entity record for model `m1`. -/
def goodEntityRecord : JValue :=
  JValue.vObj
    [("name", JValue.vArr [JValue.vStr "m1"]),
     ("entityType", JValue.vArr [JValue.vStr "component"]),
     ("error", JValue.vObj
       [("LongDescription", JValue.vArr [JValue.vStr "could not", JValue.vStr "import"])])]

/-- Stat function of a tiny filesystem: one regular file and one
directory. -/
def statExample : String → Option FSNode := fun p =>
  if p = "models/model.yaml" then some FSNode.file
  else if p = "models/pkg" then some FSNode.dir
  else none

/-- Read function of the tiny filesystem. -/
def readFileExample : String → Option (List Nat) := fun p =>
  if p = "models/model.yaml" then some [104, 105] else none

/-- Directory compressor stub returning a fixed archive stream. -/
def compressExample : String → Except String (List Nat) := fun _ => Except.ok [31, 139]

/-- Colliding relationship record: tuple (a, b, c, d). -/
def rel10A : GoMap := mkRelRecord "a" "b" "m" "c" "d" []

/-- Colliding relationship record: tuple (a, bc, d, "") — a different tuple
whose concatenated dedup key coincides with that of `rel10A`. -/
def rel10B : GoMap := mkRelRecord "a" "bc" "m" "d" "" []

/-- Selector value with an allow-block listing one from-kind and one
to-kind, the shape produced inside `mkRelRecord`. -/
def oneSelector (fromKind toKind : String) : JValue :=
  JValue.vObj [("allow", JValue.vObj
    [("from", JValue.vArr [JValue.vObj [("kind", JValue.vStr fromKind)]]),
     ("to", JValue.vArr [JValue.vObj [("kind", JValue.vStr toKind)]])])]

/-- Unsuccessful-entity record with names `[m1, m1, m1]` and entity types
`[component, relationship, Unknown]`. -/
def c5Record : JValue :=
  JValue.vObj
    [("name", JValue.vArr [JValue.vStr "m1", JValue.vStr "m1", JValue.vStr "m1"]),
     ("entityType", JValue.vArr
       [JValue.vStr "component", JValue.vStr "relationship", JValue.vStr "Unknown"]),
     ("error", JValue.vObj
       [("LongDescription", JValue.vArr [JValue.vStr "bad", JValue.vStr "schema"])])]

/-- C1. The claim reads: for a response naming at least one model with zero
successful components, zero successful relationships and zero total errors,
the report emits only the top-level summary line.  False: `displayEntities`
returns before `displaySummary` runs, so such a response produces no output
at all — in particular not the summary line. -/
theorem c1_short_circuit_counterexample :
    displayEntities c1Response = some [] ∧
    displayEntities c1Response ≠ some [OutEvent.summary c1Response.errMsg] := by
  decide

/-- C1 (amended): for every response naming at least one model with zero
successful components, zero successful relationships and zero total errors,
the report emits nothing at all — the summary line included. -/
theorem c1_short_circuit_emits_nothing (response : RegistryAPIResponse)
    (h1 : response.modelName ≠ []) (h2 : response.entityCount.compCount = 0)
    (h3 : response.entityCount.relCount = 0) (h4 : response.entityCount.totalErrCount = 0) :
    displayEntities response = some [] := by
  have hfalse : displayEmtpyModel response = false := by
    unfold displayEmtpyModel
    rw [if_pos ⟨by simpa [List.length_eq_zero] using h1, h2, h3⟩, if_pos h4]
  simp [displayEntities, hfalse]

/-- Witness for the amended C1 at the concrete degenerate response. -/
theorem c1_short_circuit_emits_nothing_witness :
    displayEntities c1Response = some [] :=
  c1_short_circuit_emits_nothing c1Response (by decide) (by decide) (by decide) (by decide)

/-- C2. The claim reads: a model name is classified as a file name exactly
when it has one of the extensions `.json .yaml .yml .tar.gz .tar .zip
.tgz`.  False for `.tar.gz`: `filepath.Ext` returns the suffix from the
final dot only (`.gz` here), so `model.tar.gz` is not recognized and lands
in the without-extension group (and would get a `MODEL:` header). -/
theorem c2_targz_counterexample :
    hasExtension "model.tar.gz" = false ∧
    partitionModels ["model.tar.gz"] = (["model.tar.gz"], []) := by
  decide

/-- C3. The claim reads: a shape mismatch on a record in
`successfulComponents` or `successfulRelationships` never terminates report
generation.  The code violates it: a relationship record without a string
`Kind` hits the unchecked assertion `rel["Kind"].(string)` and panics
(modelled `none`), aborting the whole report; a component record without a
`Model` map panics on the chained `modelData["category"].(map[string]interface{})`
assertion. -/
theorem c3_shape_mismatch_panics :
    displaySuccessfulRelationships c3Response "m" = none ∧
    componentRows "m" c3Response.entityTypeSummary.successfulComponents = none ∧
    displayEntities c3Response = none := by
  decide

/-- C10. Dedup keys are built by plain string concatenation
`kind ++ "-" ++ subtype ++ from ++ to`: the distinct tuples `(a, b, c, d)`
and `(a, bc, d, "")` share the key `"a-bcd"`, so the second record is
silently dropped and only one row is rendered for two genuinely different
relationships. -/
theorem c10_dedup_key_collision :
    (("a", "b", "c", "d") ≠ (("a", "bc", "d", "") : String × String × String × String)) ∧
    ("a" ++ "-" ++ "b" ++ "c" ++ "d" : String) = "a" ++ "-" ++ "bc" ++ "d" ++ "" ∧
    processRelationships "m" ([], []) [rel10A, rel10B] =
      some (["a-bcd"], [("a-b", [["c", "d"]])]) := by
  decide

/-- Shape of a successful `extFromRev` scan: the extension starts with the
dot found last and contains no further dot. -/
theorem extFromRev_no_inner_dot :
    ∀ (l e : List Char), extFromRev l = some e → ∃ t, e = '.' :: t ∧ '.' ∉ t := by
  intro l
  induction l with
  | nil => intro e h; simp [extFromRev] at h
  | cons c rest ih =>
      intro e h
      by_cases hc : c = '/'
      · simp [extFromRev, hc] at h
      · by_cases hd : c = '.'
        · simp [extFromRev, hc, hd] at h
          exact ⟨[], by simp [← h], by simp⟩
        · simp [extFromRev, hc, hd] at h
          obtain ⟨e', he', rfl⟩ := h
          obtain ⟨t, rfl, ht⟩ := ih e' he'
          refine ⟨t ++ [c], by simp, ?_⟩
          simp [List.mem_append, ht]
          exact fun hdot => hd hdot.symm

/-- `filepath.Ext` never returns a multi-dot suffix, so the comparison with
`".tar.gz"` in `hasExtension` can never succeed. -/
theorem goExt_ne_targz (name : String) : goExt name ≠ ".tar.gz" := by
  unfold goExt
  cases h : extFromRev name.data.reverse with
  | none => decide
  | some e =>
      intro heq
      obtain ⟨t, rfl, ht⟩ := extFromRev_no_inner_dot _ _ h
      have hdata : ('.' :: t) = ".tar.gz".data := congrArg String.data heq
      rw [show ".tar.gz".data = ['.', 't', 'a', 'r', '.', 'g', 'z'] from rfl] at hdata
      injection hdata with _ h2
      apply ht
      rw [h2]
      decide

/-- Effective classification rule of `hasExtension`: the final-dot extension
must be one of the six reachable alternatives. -/
theorem hasExtension_eq_decide (name : String) :
    hasExtension name =
      decide (goExt name ∈ ([".json", ".yaml", ".yml", ".tar", ".zip", ".tgz"] : List String)) := by
  have hne : goExt name ≠ ".tar.gz" := goExt_ne_targz name
  simp [hasExtension, hne, List.mem_cons, Bool.decide_or, Bool.or_assoc]

/-- The Go classification loop is the pair of order-preserving filters:
non-empty names without a recognized extension, then non-empty names with
one. -/
theorem partitionModels_eq_filter (l : List String) :
    partitionModels l =
      (l.filter (fun m => m ≠ "" && !hasExtension m),
       l.filter (fun m => m ≠ "" && hasExtension m)) := by
  induction l with
  | nil => rfl
  | cons m rest ih =>
      by_cases hm : m = ""
      · simp [partitionModels, List.filter, hm, ih]
      · by_cases he : hasExtension m
        · simp [partitionModels, List.filter, hm, he, ih]
        · simp [partitionModels, List.filter, hm, he, ih]

/-- A name classified without extension renders exactly as the same name
classified with extension, prefixed with its `MODEL` header. -/
theorem displayModelInfo_header (response : RegistryAPIResponse) (model : String) :
    displayModelInfo response model false =
      (displayModelInfo response model true).map
        (fun evs => OutEvent.modelHeader model :: evs) := by
  unfold displayModelInfo
  cases displaySuccessfulComponents response model <;>
    cases displaySuccessfulRelationships response model <;>
      cases displayUnsuccessfulEntities response model <;>
        simp

/-- `displayEntitisIfModel` renders the without-extension group in source
order, then the with-extension group in source order, duplicates kept. -/
theorem displayEntitisIfModel_groups (response : RegistryAPIResponse) :
    displayEntitisIfModel response =
      (displayModelBlocks response false
          (response.modelName.filter (fun m => m ≠ "" && !hasExtension m))).bind
        (fun a =>
          (displayModelBlocks response true
              (response.modelName.filter (fun m => m ≠ "" && hasExtension m))).map
            (fun b => a ++ b)) := by
  simp only [displayEntitisIfModel, partitionModels_eq_filter, Option.map_eq_bind]
  rfl

/-- C2 (amended).  A non-empty model name is classified as a file name
exactly when its final-dot extension (`filepath.Ext`) is one of `.json
.yaml .yml .tar .zip .tgz` — the `.tar.gz` alternative is unreachable, so
names ending in `.tar.gz` (final extension `.gz`) land in the
without-extension group; empty names are dropped; the without-extension
group is rendered first with a `MODEL` header per occurrence, then the
with-extension group without headers, each group preserving source order
and duplicates. -/
theorem c2_classification_and_order :
    (∀ name : String, hasExtension name =
      decide (goExt name ∈ ([".json", ".yaml", ".yml", ".tar", ".zip", ".tgz"] : List String))) ∧
    (∀ l : List String, partitionModels l =
      (l.filter (fun m => m ≠ "" && !hasExtension m),
       l.filter (fun m => m ≠ "" && hasExtension m))) ∧
    (∀ (response : RegistryAPIResponse) (model : String),
      displayModelInfo response model false =
        (displayModelInfo response model true).map
          (fun evs => OutEvent.modelHeader model :: evs)) ∧
    (∀ response : RegistryAPIResponse,
      displayEntitisIfModel response =
        (displayModelBlocks response false
            (response.modelName.filter (fun m => m ≠ "" && !hasExtension m))).bind
          (fun a =>
            (displayModelBlocks response true
                (response.modelName.filter (fun m => m ≠ "" && hasExtension m))).map
              (fun b => a ++ b))) :=
  ⟨hasExtension_eq_decide, partitionModels_eq_filter, displayModelInfo_header,
   displayEntitisIfModel_groups⟩

/-- A response with some of its model names replaced leaves every detail
renderer unchanged: they read only the entity-type summary. -/
theorem displayModelBlocks_modelName_irrel (response : RegistryAPIResponse)
    (names : List String) (hasExt : Bool) (l : List String) :
    displayModelBlocks { response with modelName := names } hasExt l =
      displayModelBlocks response hasExt l := by
  induction l with
  | nil => rfl
  | cons m rest ih => simp only [displayModelBlocks, ih]; rfl

/-- C8.  An empty model name is excluded from both classification groups
and produces no output: the whole per-model rendering of a response equals
that of the response with empty names removed, and no `MODEL` header for
the empty name exists. -/
theorem c8_empty_model_names_excluded :
    (∀ l : List String, "" ∉ (partitionModels l).1 ∧ "" ∉ (partitionModels l).2) ∧
    (∀ response : RegistryAPIResponse,
      displayEntitisIfModel response =
        displayEntitisIfModel
          { response with modelName := response.modelName.filter (fun m => m ≠ "") }) := by
  constructor
  · intro l
    rw [partitionModels_eq_filter]
    constructor <;> · intro hmem; simp at hmem
  · intro response
    unfold displayEntitisIfModel
    rw [show ({ response with modelName := response.modelName.filter (fun m => m ≠ "") } :
        RegistryAPIResponse).modelName = response.modelName.filter (fun m => m ≠ "") from rfl]
    rw [show partitionModels (response.modelName.filter (fun m => m ≠ "")) =
        partitionModels response.modelName from ?_]
    · simp only [displayModelBlocks_modelName_irrel]
    · rw [partitionModels_eq_filter, partitionModels_eq_filter]
      simp only [List.filter_filter, Prod.mk.injEq]
      constructor <;>
        · apply List.filter_congr
          intro a _
          by_cases ha : a = "" <;> simp [ha]


/-- `fmt.Sprintf` with `%s` renders a string value as itself. -/
theorem goFormatS_vStr (s : String) : goFormatS (JValue.vStr s) = s := rfl

set_option maxHeartbeats 1000000 in
/-- Processing one well-formed single-selector relationship record whose
model matches reduces to its selector step. -/
theorem processRelationships_cons_mkRel (m k st f t : String) (extra : GoMap)
    (stt : List String × RelMap) (rest : List GoMap) :
    processRelationships m stt (mkRelRecord k st m f t extra :: rest) =
      (processSelectors k st stt [oneSelector f t]).bind
        (fun st' => processRelationships m st' rest) := by
  simp [processRelationships, mkRelRecord, mapLookup, jAssertString, jAssertMap, jAssertArr,
    oneSelector]

set_option maxHeartbeats 1000000 in
/-- One selector step: skip when the concatenated key was seen, otherwise
record the key and append the row to its group. -/
theorem processSelectors_one (k st f t : String) (stt : List String × RelMap) :
    processSelectors k st stt [oneSelector f t] =
      some (if (k ++ "-" ++ st) ++ f ++ t ∈ stt.1 then stt
            else (stt.1 ++ [(k ++ "-" ++ st) ++ f ++ t],
                  mapInsertAppend stt.2 (k ++ "-" ++ st) [f, t])) := by
  simp only [processSelectors, oneSelector, mapLookup, jAssertMap, jAssertArr, goFormatS_vStr]
  simp [mapLookup, goFormatS_vStr]

set_option maxHeartbeats 2000000 in
/-- C4.  Two successful-relationship records for the current model agreeing
on kind, subtype, first allowed from-kind and first allowed to-kind —
whatever their other fields — produce exactly one row for that tuple (the
later duplicate is dropped by the `seen` set), and the rendered table of
the concrete two-duplicate response holds exactly that one row. -/
theorem c4_relationship_dedup (k st m f t : String) (extra1 extra2 : GoMap) :
    (processRelationships m ([], [])
        [mkRelRecord k st m f t extra1, mkRelRecord k st m f t extra2]).map Prod.snd =
      some [(k ++ "-" ++ st, [[f, t]])] ∧
    displaySuccessfulRelationships c4Response "model1" =
      some [OutEvent.blank, OutEvent.relHeader false "kind1" "sub1",
        OutEvent.table ["From", "To"] [["from1", "to1"]]] := by
  constructor
  · rw [processRelationships_cons_mkRel, processSelectors_one]
    simp only [List.not_mem_nil, if_false, List.nil_append, Option.some_bind]
    rw [processRelationships_cons_mkRel, processSelectors_one]
    simp [mapInsertAppend, processRelationships]
  · decide

/-- Composition shape of the entity-type line: the component phrase when the
component count is positive, `" and"` exactly when both counts are
positive, the relationship phrase when the relationship count is positive,
with singular/plural chosen inside each phrase by its count. -/
theorem renderEntityTypeLine_phrases (c r : Nat) :
    renderEntityTypeLine c r =
      (if c > 0 then entityCountPhrase c "component" else "") ++
      (if c > 0 ∧ r > 0 then " and" else "") ++
      (if r > 0 then entityCountPhrase r "relationship" else "") := by
  unfold renderEntityTypeLine entityCountPhrase
  by_cases hc : c > 0 <;> by_cases hr : r > 0 <;>
    · simp [hc, hr, String.append_assoc, String.append_empty, String.empty_append]
      all_goals apply String.ext
      all_goals simp [String.data_append]

/-- C5.  On names `[m1, m1, m1]`, entity types `[component, relationship,
Unknown]` and current model `m1`: exactly one immediate Unknown error line
(for the third index) and the combined phrase `1 entity of type component
and 1 entity of type relationship`; the full record renders one combined
error line carrying that phrase; in general the phrase uses singular
`entity` / plural `entities` per count and `and` exactly when both counts
are positive. -/
theorem c5_unsuccessful_entity_counting :
    (∀ d : String,
      buildEntityTypeLine [JValue.vStr "m1", JValue.vStr "m1", JValue.vStr "m1"]
          [JValue.vStr "component", JValue.vStr "relationship", JValue.vStr "Unknown"] d "m1" =
        some ([OutEvent.unknownError "m1" d],
          " 1 entity of type component and 1 entity of type relationship")) ∧
    processUnsuccessfulRecord "m1" c5Record =
      some [OutEvent.unknownError "m1" "bad schema", OutEvent.blank,
        OutEvent.combinedError " 1 entity of type component and 1 entity of type relationship"
          "bad schema"] ∧
    (∀ c r : Nat, renderEntityTypeLine c r =
      (if c > 0 then entityCountPhrase c "component" else "") ++
      (if c > 0 ∧ r > 0 then " and" else "") ++
      (if r > 0 then entityCountPhrase r "relationship" else "")) := by
  refine ⟨?_, by decide, renderEntityTypeLine_phrases⟩
  intro d
  simp [buildEntityTypeLine, buildEntityTypeWalk, entityTypeTail, jAssertString,
    renderEntityTypeLine]
  rfl

/-- Record-loop output distributes over list concatenation (panics
propagate). -/
theorem processUnsuccessfulList_append (m : String) (l1 l2 : List JValue) :
    processUnsuccessfulList m (l1 ++ l2) =
      (processUnsuccessfulList m l1).bind (fun a =>
        (processUnsuccessfulList m l2).map (fun b => a ++ b)) := by
  induction l1 with
  | nil =>
      simp only [List.nil_append, processUnsuccessfulList, Option.some_bind]
      cases processUnsuccessfulList m l2 <;> simp
  | cons e rest ih =>
      cases he : processUnsuccessfulRecord m e <;>
        cases hrest : processUnsuccessfulList m rest <;>
          cases hl2 : processUnsuccessfulList m l2 <;>
            simp [processUnsuccessfulList, he, hrest, hl2, ih]

/-- C6.  An unsuccessful-entity record whose `error` field fails the map
cast contributes exactly one diagnostic and nothing else, and the
surrounding records before and after it are still rendered exactly as they
would be on their own. -/
theorem c6_missing_error_record_skipped (bad : JValue) (bm : GoMap)
    (h1 : jAssertMap bad = some bm)
    (h2 : (jAssertArr (mapLookup bm "name")).isSome = true)
    (h3 : (jAssertArr (mapLookup bm "entityType")).isSome = true)
    (h4 : jAssertMap (mapLookup bm "error") = none)
    (m : String) (pre post : List JValue) :
    processUnsuccessfulRecord m bad = some [OutEvent.diagnostic] ∧
    processUnsuccessfulList m (pre ++ bad :: post) =
      (processUnsuccessfulList m pre).bind (fun a =>
        (processUnsuccessfulList m post).map (fun b => a ++ OutEvent.diagnostic :: b)) := by
  obtain ⟨names, hn⟩ := Option.isSome_iff_exists.mp h2
  obtain ⟨types, ht⟩ := Option.isSome_iff_exists.mp h3
  have hrec : processUnsuccessfulRecord m bad = some [OutEvent.diagnostic] := by
    simp [processUnsuccessfulRecord, h1, hn, ht, h4]
  refine ⟨hrec, ?_⟩
  rw [processUnsuccessfulList_append]
  simp only [processUnsuccessfulList, hrec, Option.some_bind]
  cases processUnsuccessfulList m pre <;> cases processUnsuccessfulList m post <;> simp

/-- Witness for C6 at a concrete record with no `error` field, followed by
one well-formed record. -/
theorem c6_missing_error_record_skipped_witness :
    processUnsuccessfulRecord "m1" badEntityRecord = some [OutEvent.diagnostic] ∧
    processUnsuccessfulList "m1" ([] ++ badEntityRecord :: [goodEntityRecord]) =
      (processUnsuccessfulList "m1" []).bind (fun a =>
        (processUnsuccessfulList "m1" [goodEntityRecord]).map
          (fun b => a ++ OutEvent.diagnostic :: b)) :=
  c6_missing_error_record_skipped badEntityRecord
    [("name", JValue.vArr [JValue.vStr "m1"]),
     ("entityType", JValue.vArr [JValue.vStr "component"])]
    rfl rfl rfl rfl "m1" [] [goodEntityRecord]

/-- C7.  A non-directory input path is submitted as the file's raw bytes
with no compression or archiving, under the base name of the path; a
directory input is submitted under the directory's base name with
`.tar.gz` appended. -/
theorem c7_payload_and_name (stat : String → Option FSNode)
    (readFile : String → Option (List Nat))
    (compressDirectory : String → Except String (List Nat)) (path : String) :
    (∀ content, stat path = some FSNode.file → readFile path = some content →
      importModelRun stat readFile compressDirectory path =
        Except.ok (content, filepathBase path)) ∧
    (∀ archive, stat path = some FSNode.dir → compressDirectory path = Except.ok archive →
      importModelRun stat readFile compressDirectory path =
        Except.ok (archive, filepathBase path ++ ".tar.gz")) := by
  constructor
  · intro content hstat hread
    simp [importModelRun, hstat, hread]
  · intro archive hstat hcompress
    simp [importModelRun, hstat, hcompress]

/-- Witness for C7 on a tiny filesystem: one regular file whose bytes pass
through under its base name, one directory whose archive is submitted
under `<dirname>.tar.gz`. -/
theorem c7_payload_and_name_witness :
    importModelRun statExample readFileExample compressExample "models/model.yaml" =
      Except.ok ([104, 105], "model.yaml") ∧
    importModelRun statExample readFileExample compressExample "models/pkg" =
      Except.ok ([31, 139], "pkg.tar.gz") :=
  ⟨(c7_payload_and_name statExample readFileExample compressExample "models/model.yaml").1
      [104, 105] rfl rfl,
   (c7_payload_and_name statExample readFileExample compressExample "models/pkg").2
      [31, 139] rfl rfl⟩

/-- The per-index tail never panics on a string name: Unknown logs the
immediate error line, component and relationship bump their counters,
anything else leaves the state unchanged. -/
theorem entityTypeTail_vStr (d s et : String) (st : List OutEvent × Nat × Nat) :
    entityTypeTail d (JValue.vStr s) et st =
      some (if et = "Unknown" then (st.1 ++ [OutEvent.unknownError s d], st.2.1, st.2.2)
            else if et = "component" then (st.1, st.2.1 + 1, st.2.2)
            else if et = "relationship" then (st.1, st.2.1, st.2.2 + 1)
            else st) := by
  unfold entityTypeTail jAssertString
  split_ifs <;> rfl

/-- Indices at or past the length of the entity-type array leave the walk
state untouched: the entity type reads as `""`, which no branch counts,
provided the remaining names are strings. -/
theorem buildEntityTypeWalk_past_end (m d : String) (types : List JValue) :
    ∀ (names : List JValue) (i : Nat) (st : List OutEvent × Nat × Nat),
      types.length ≤ i → (∀ v ∈ names, ∃ s, v = JValue.vStr s) →
      buildEntityTypeWalk m d types i st names = some st := by
  intro names
  induction names with
  | nil => intro i st _ _; rfl
  | cons name rest ih =>
      intro i st hi hs
      obtain ⟨s, rfl⟩ := hs _ (List.mem_cons_self _ _)
      have hs' : ∀ v ∈ rest, ∃ x, v = JValue.vStr x :=
        fun v hv => hs v (List.mem_cons_of_mem _ hv)
      have hget : types[i]? = none := List.getElem?_eq_none_iff.mpr hi
      have hrec := ih (i + 1) st (Nat.le_succ_of_le hi) hs'
      by_cases hm : m = ""
      · subst hm
        simp [buildEntityTypeWalk, hget, jAssertString, hrec]
      · by_cases hms : m = s
        · subst hms
          simp [buildEntityTypeWalk, hget, jAssertString, hm, entityTypeTail_vStr, hrec]
        · simp [buildEntityTypeWalk, hget, jAssertString, hm, hms, hrec]

/-- The walk over string names only ever consumes the first
`entityTypes.length - i` names: the remainder contributes nothing. -/
theorem buildEntityTypeWalk_take (m d : String) (types : List JValue) :
    ∀ (names : List JValue) (i : Nat) (st : List OutEvent × Nat × Nat),
      (∀ v ∈ names, ∃ s, v = JValue.vStr s) →
      buildEntityTypeWalk m d types i st names =
        buildEntityTypeWalk m d types i st (names.take (types.length - i)) := by
  intro names
  induction names with
  | nil => intro i st _; simp
  | cons name rest ih =>
      intro i st hs
      obtain ⟨s, rfl⟩ := hs _ (List.mem_cons_self _ _)
      have hs' : ∀ v ∈ rest, ∃ x, v = JValue.vStr x :=
        fun v hv => hs v (List.mem_cons_of_mem _ hv)
      have ihh : ∀ (j : Nat) (st' : List OutEvent × Nat × Nat),
          buildEntityTypeWalk m d types j st' rest =
            buildEntityTypeWalk m d types j st' (rest.take (types.length - j)) :=
        fun j st' => ih j st' hs'
      by_cases hi : i < types.length
      · have hlen : types.length - i = (types.length - (i + 1)) + 1 := by omega
        rw [hlen, List.take_succ_cons]
        simp only [buildEntityTypeWalk, List.get?_eq_getElem?]
        cases hv : types[i]? with
        | none => exact absurd (List.getElem?_eq_none_iff.mp hv) (Nat.not_le.mpr hi)
        | some v =>
            cases hjs : jAssertString v with
            | none => simp [hjs]
            | some et =>
                simp only [hjs, Option.some_bind]
                by_cases hm : m = ""
                · subst hm
                  by_cases het : et = "Unknown"
                  · subst het
                    simp [entityTypeTail_vStr, ihh]
                  · simp [het, ihh]
                · by_cases hms : m = s
                  · subst hms
                    simp [hm, entityTypeTail_vStr, jAssertString, ihh]
                  · simp [hm, hms, jAssertString, ihh]
      · have hle : types.length ≤ i := Nat.not_lt.mp hi
        have h0 : types.length - i = 0 := by omega
        rw [h0, List.take_zero]
        rw [buildEntityTypeWalk_past_end m d types _ i st hle hs]
        rfl

/-- With string names and string entity types the walk never panics. -/
theorem buildEntityTypeWalk_isSome (m d : String) (types : List JValue)
    (htypes : ∀ v ∈ types, ∃ s, v = JValue.vStr s) :
    ∀ (names : List JValue) (i : Nat) (st : List OutEvent × Nat × Nat),
      (∀ v ∈ names, ∃ s, v = JValue.vStr s) →
      (buildEntityTypeWalk m d types i st names).isSome = true := by
  intro names
  induction names with
  | nil => intro i st _; rfl
  | cons name rest ih =>
      intro i st hs
      obtain ⟨s, rfl⟩ := hs _ (List.mem_cons_self _ _)
      have hs' : ∀ v ∈ rest, ∃ x, v = JValue.vStr x :=
        fun v hv => hs v (List.mem_cons_of_mem _ hv)
      have ihh : ∀ (j : Nat) (st' : List OutEvent × Nat × Nat),
          (buildEntityTypeWalk m d types j st' rest).isSome = true :=
        fun j st' => ih j st' hs'
      cases hv : types[i]? with
      | none =>
          by_cases hm : m = ""
          · subst hm
            simp [buildEntityTypeWalk, List.get?_eq_getElem?, hv, jAssertString, ihh]
          · by_cases hms : m = s
            · subst hms
              simp [buildEntityTypeWalk, List.get?_eq_getElem?, hv, jAssertString, hm,
                entityTypeTail_vStr, ihh]
            · simp [buildEntityTypeWalk, List.get?_eq_getElem?, hv, jAssertString, hm, hms, ihh]
      | some v =>
          obtain ⟨et, rfl⟩ := htypes v (List.getElem?_mem hv)
          by_cases hm : m = ""
          · subst hm
            by_cases het : et = "Unknown"
            · subst het
              simp [buildEntityTypeWalk, List.get?_eq_getElem?, hv, jAssertString,
                entityTypeTail_vStr, ihh]
            · simp [buildEntityTypeWalk, List.get?_eq_getElem?, hv, jAssertString, het, ihh]
          · by_cases hms : m = s
            · subst hms
              simp [buildEntityTypeWalk, List.get?_eq_getElem?, hv, jAssertString, hm,
                entityTypeTail_vStr, ihh]
            · simp [buildEntityTypeWalk, List.get?_eq_getElem?, hv, jAssertString, hm, hms, ihh]

/-- C9.  Names at indices at or past the length of the entityType array
are treated as having empty entity type: given string name entries the
result equals that of the walk truncated to the entityType length (no
Unknown line, no counter bump from the overhang, no out-of-range access),
and with string entity types as well the walk completes without panic. -/
theorem c9_names_past_entity_types (names entityTypes : List JValue) (d m : String)
    (hnames : ∀ v ∈ names, ∃ s, v = JValue.vStr s) :
    buildEntityTypeLine names entityTypes d m =
      buildEntityTypeLine (names.take entityTypes.length) entityTypes d m ∧
    ((∀ v ∈ entityTypes, ∃ s, v = JValue.vStr s) →
      (buildEntityTypeLine names entityTypes d m).isSome = true) := by
  constructor
  · unfold buildEntityTypeLine
    rw [buildEntityTypeWalk_take m d entityTypes names 0 ([], 0, 0) hnames]
    simp
  · intro htypes
    unfold buildEntityTypeLine
    have h := buildEntityTypeWalk_isSome m d entityTypes htypes names 0 ([], 0, 0) hnames
    obtain ⟨st, hst⟩ := Option.isSome_iff_exists.mp h
    rw [hst]
    rfl

/-- Witness for C9: two names, one entity type. -/
theorem c9_names_past_entity_types_witness :
    (buildEntityTypeLine [JValue.vStr "m1", JValue.vStr "m1"] [JValue.vStr "component"] "d" "m1" =
      buildEntityTypeLine
        (([JValue.vStr "m1", JValue.vStr "m1"] : List JValue).take
          ([JValue.vStr "component"] : List JValue).length)
        [JValue.vStr "component"] "d" "m1") ∧
    ((∀ v ∈ ([JValue.vStr "component"] : List JValue), ∃ s, v = JValue.vStr s) →
      (buildEntityTypeLine [JValue.vStr "m1", JValue.vStr "m1"]
        [JValue.vStr "component"] "d" "m1").isSome = true) :=
  c9_names_past_entity_types [JValue.vStr "m1", JValue.vStr "m1"] [JValue.vStr "component"] "d" "m1"
    (by simp)
